import Mathlib

/-
Verification of the component-library repository: a shallow embedding of
the Input component (src/components/Input.tsx), the vite build
configuration (vite.config.ts), and the export aggregation point, together
with theorems checking the specification claims against them.

Rendered output is modelled as a tree of element and text nodes.
An attribute bag (a JS object of JSX props) is modelled as an association
list of string keys and string values; lookup takes the first matching
entry, matching the unique-key discipline of JS objects.  JSX duplicate
attributes follow object-literal semantics: a later entry (in particular a
spread) overrides an earlier attribute with the same key.  React drops an
attribute whose value is undefined, which the model expresses by optional
named fields contributing no attribute when absent.
-/

namespace ComponentLib

abbrev Attr := String × String

abbrev Bag := List Attr

/-- A rendered node: an element with a tag, attributes and children, or a
text node.  This is the shape of the virtual-DOM output the components
produce. -/
inductive Node where
  | element (tag : String) (attrs : List Attr) (children : List Node)
  | text (s : String)

/-- Lookup of an attribute value by key (first match). -/
def getAttr (attrs : List Attr) (k : String) : Option String :=
  (attrs.find? (fun kv => kv.1 == k)).map (fun kv => kv.2)

/-- Whether a key occurs in an attribute list. -/
def hasKey (attrs : List Attr) (k : String) : Bool :=
  attrs.any (fun kv => kv.1 == k)

/-- Drop every entry whose key is in the given list.  This models the rest
pattern of JS destructuring, which collects all properties other than the
named ones. -/
def removeKeys (bag : Bag) (ks : List String) : Bag :=
  bag.filter (fun kv => !(ks.contains kv.1))

/-- Merge JSX attributes written before a spread with the spread object:
object-literal semantics, the later (spread) entry wins on a key clash. -/
def mergeProps (base extra : List Attr) : List Attr :=
  base.filter (fun kv => !(hasKey extra kv.1)) ++ extra

/-- A named JSX attribute with an optional value: React emits no attribute
when the value is undefined. -/
def optAttr (k : String) : Option String → List Attr
  | some v => [(k, v)]
  | none => []

/-- The destructured parameter of Input from src/components/Input.tsx:
the five named fields, plus the rest props collected by the spread
pattern. -/
structure InputProps where
  label : Option String
  placeholder : Option String
  type : Option String
  inputClassName : Option String
  labelClassName : Option String
  rest : Bag

/-- The five keys the Input destructuring pattern names. -/
def namedKeys : List String :=
  ["label", "placeholder", "type", "inputClassName", "labelClassName"]

/-- JS parameter destructuring of the single props object of Input. -/
def destructureInput (bag : Bag) : InputProps :=
  { label := getAttr bag "label"
    placeholder := getAttr bag "placeholder"
    type := getAttr bag "type"
    inputClassName := getAttr bag "inputClassName"
    labelClassName := getAttr bag "labelClassName"
    rest := removeKeys bag namedKeys }

/-- The JSX body of Input (src/components/Input.tsx): a label element
carrying labelClassName, containing the label text when present, followed
by an input element whose attributes are className, type, placeholder and
then the spread rest props. -/
def renderInput (p : InputProps) : Node :=
  Node.element "label" (optAttr "className" p.labelClassName)
    ((match p.label with
      | some s => [Node.text s]
      | none => []) ++
     [Node.element "input"
        (mergeProps
          (optAttr "className" p.inputClassName ++
           optAttr "type" p.type ++
           optAttr "placeholder" p.placeholder)
          p.rest) []])

/-- The Input component: destructure the props object, then render. -/
def Input (bag : Bag) : Node := renderInput (destructureInput bag)

/-- Modelled from the spec: src/components/Button.tsx is not present under
the source tree (only documentation describes it).  Per the spec, Button
renders a clickable control, forwarding all caller-supplied attributes
(event handlers, styling, ARIA attributes) unchanged to the underlying
interactive element. -/
def Button (bag : Bag) : Node := Node.element "button" bag []

/-- Tag of a node, none for text nodes. -/
def tagOf : Node → Option String
  | Node.element t _ _ => some t
  | Node.text _ => none

/-- Attributes of a node, empty for text nodes. -/
def attrsOf : Node → List Attr
  | Node.element _ a _ => a
  | Node.text _ => []

/-- Children of a node, empty for text nodes. -/
def childrenOf : Node → List Node
  | Node.element _ _ cs => cs
  | Node.text _ => []

/-- Whether a node is an element with the given tag. -/
def isTag (n : Node) (tag : String) : Bool :=
  match n with
  | Node.element t _ _ => t == tag
  | Node.text _ => false

/-- First direct child element with the given tag. -/
def childElem (tag : String) (n : Node) : Option Node :=
  (childrenOf n).find? (fun m => isTag m tag)

/-- Attributes of the input element inside a rendered node. -/
def inputAttrs (n : Node) : List Attr :=
  match childElem "input" n with
  | some m => attrsOf m
  | none => []

/-- Text carried directly by a node (text nodes only). -/
def textOf : Node → String
  | Node.text s => s
  | Node.element _ _ _ => ""

/-- Concatenated text of the direct children of a node.  The trees the
components produce are two levels deep with childless inner elements, so
this is their full text content. -/
def directText (n : Node) : String :=
  String.join ((childrenOf n).map textOf)

/-- Rendering the same component twice with the same attribute bag, as a
pair of the two outputs. -/
def renderTwice (f : Bag → Node) (bag : Bag) : Node × Node := (f bag, f bag)

/-- The lib section of the build options in vite.config.ts. -/
structure LibConfig where
  entry : String
  name : String
  formats : List String
  fileName : String → String

/-- The rollup output options in vite.config.ts. -/
structure RollupOutput where
  globals : List (String × String)

/-- The rollupOptions section in vite.config.ts. -/
structure RollupOptions where
  external : List String
  output : RollupOutput

/-- The build section in vite.config.ts. -/
structure BuildConfig where
  lib : LibConfig
  rollupOptions : RollupOptions

/-- The build configuration declared in vite.config.ts. -/
def viteBuild : BuildConfig :=
  { lib :=
      { entry := "src/index.ts"
        name := "ComponentApp"
        formats := ["es", "umd"]
        fileName := fun format => "component-app." ++ format ++ ".js" }
    rollupOptions :=
      { external := ["react", "react-dom", "react/jsx-runtime"]
        output :=
          { globals :=
              [("react", "React"),
               ("react-dom", "ReactDOM"),
               ("react/jsx-runtime", "jsxRuntime")] } } }

/-- Modelled from the spec: src/index.ts is not present under the source
tree (only documentation quotes it).  Per the spec, the aggregation entry
point exports exactly the two components Button and Input. -/
def indexExports : List String := ["Button", "Input"]


theorem getAttr_cons (kv : Attr) (l : List Attr) (k : String) :
    getAttr (kv :: l) k = if kv.1 == k then some kv.2 else getAttr l k := by
  by_cases h : kv.1 == k <;> simp [getAttr, List.find?_cons, h]

theorem hasKey_cons (kv : Attr) (l : List Attr) (k : String) :
    hasKey (kv :: l) k = ((kv.1 == k) || hasKey l k) := by
  simp [hasKey, List.any_cons]

theorem hasKey_eq_isSome (l : List Attr) (k : String) :
    hasKey l k = (getAttr l k).isSome := by
  induction l with
  | nil => rfl
  | cons kv l ih =>
    by_cases h : kv.1 == k <;>
      simp [hasKey, List.any_cons, getAttr_cons, h] <;>
      simpa [hasKey] using ih

theorem getAttr_append_some {l1 l2 : List Attr} {k : String} {v : String}
    (h : getAttr l1 k = some v) : getAttr (l1 ++ l2) k = some v := by
  induction l1 with
  | nil => simp [getAttr] at h
  | cons kv l1 ih =>
    by_cases hk : kv.1 == k <;> simp [getAttr_cons, hk] at h ⊢
    · exact h
    · exact ih h

theorem getAttr_append_none {l1 l2 : List Attr} {k : String}
    (h : getAttr l1 k = none) : getAttr (l1 ++ l2) k = getAttr l2 k := by
  induction l1 with
  | nil => rfl
  | cons kv l1 ih =>
    by_cases hk : kv.1 == k <;> simp [getAttr_cons, hk] at h ⊢
    exact ih h

theorem getAttr_mergeProps_of_hasKey {base extra : List Attr} {k : String}
    (h : hasKey extra k = true) :
    getAttr (mergeProps base extra) k = getAttr extra k := by
  induction base with
  | nil => simp [mergeProps]
  | cons kv base ih =>
    by_cases hd : hasKey extra kv.1 <;> simp [mergeProps, List.filter_cons, hd] at ih ⊢
    · exact ih
    · have hne : (kv.1 == k) = false := by
        by_cases he : kv.1 == k
        · exact absurd h (by simp_all)
        · simpa using he
      simpa [getAttr_cons, hne] using ih

theorem getAttr_eq_none_of_hasKey_false {l : List Attr} {k : String}
    (h : hasKey l k = false) : getAttr l k = none := by
  have hs := hasKey_eq_isSome l k
  rw [h] at hs
  cases hx : getAttr l k with
  | none => rfl
  | some v => rw [hx] at hs; simp at hs

theorem getAttr_mergeProps_of_not_hasKey {base extra : List Attr} {k : String}
    (h : hasKey extra k = false) :
    getAttr (mergeProps base extra) k = getAttr base k := by
  induction base with
  | nil =>
    simpa [mergeProps, getAttr] using getAttr_eq_none_of_hasKey_false h
  | cons kv base ih =>
    by_cases hd : hasKey extra kv.1 <;> simp [mergeProps, List.filter_cons, hd] at ih ⊢
    · have hne : (kv.1 == k) = false := by
        by_cases he : kv.1 == k
        · have hk : kv.1 = k := by simpa using he
          rw [hk] at hd; simp_all
        · simpa using he
      simpa [getAttr_cons, hne] using ih
    · by_cases he : kv.1 == k <;> simp [getAttr_cons, he] <;> simpa using ih

theorem hasKey_removeKeys_of_mem {bag : Bag} {ks : List String} {k : String}
    (h : k ∈ ks) :
    hasKey (removeKeys bag ks) k = false := by
  induction bag with
  | nil => rfl
  | cons kv bag ih =>
    by_cases hd : kv.1 ∈ ks <;>
      simp [removeKeys, List.filter_cons, hd] at ih ⊢
    · exact ih
    · have hne : kv.1 ≠ k := fun he => hd (he ▸ h)
      simp [hasKey_cons, ih, hne]

theorem getAttr_removeKeys_of_not_mem {bag : Bag} {ks : List String} {k : String}
    (h : k ∉ ks) :
    getAttr (removeKeys bag ks) k = getAttr bag k := by
  induction bag with
  | nil => rfl
  | cons kv bag ih =>
    by_cases hd : kv.1 ∈ ks <;>
      simp [removeKeys, List.filter_cons, hd] at ih ⊢
    · have hne : (kv.1 == k) = false := by
        by_cases he : kv.1 == k
        · have hk : kv.1 = k := by simpa using he
          rw [hk] at hd; exact absurd hd h
        · simpa using he
      simpa [getAttr_cons, hne] using ih
    · by_cases he : kv.1 == k <;> simp [getAttr_cons, he] <;> simpa using ih

theorem getAttr_optAttr_self (k : String) (v : Option String) :
    getAttr (optAttr k v) k = v := by
  cases v <;> simp [optAttr, getAttr, List.find?_cons]

theorem getAttr_optAttr_ne {k k2 : String} (v : Option String) (h : k ≠ k2) :
    getAttr (optAttr k v) k2 = none := by
  cases v <;> simp [optAttr, getAttr, List.find?_cons, h]

theorem Input_eq (bag : Bag) :
    Input bag =
      Node.element "label" (optAttr "className" (getAttr bag "labelClassName"))
        ((match getAttr bag "label" with
          | some s => [Node.text s]
          | none => []) ++
         [Node.element "input"
            (mergeProps
              (optAttr "className" (getAttr bag "inputClassName") ++
               optAttr "type" (getAttr bag "type") ++
               optAttr "placeholder" (getAttr bag "placeholder"))
              (removeKeys bag namedKeys)) []]) := rfl

theorem inputAttrs_Input (bag : Bag) :
    inputAttrs (Input bag) =
      mergeProps
        (optAttr "className" (getAttr bag "inputClassName") ++
         optAttr "type" (getAttr bag "type") ++
         optAttr "placeholder" (getAttr bag "placeholder"))
        (removeKeys bag namedKeys) := by
  rw [Input_eq]
  cases hl : getAttr bag "label" <;>
    simp [inputAttrs, childElem, childrenOf, isTag, attrsOf, List.find?_cons]

theorem attrsOf_Input (bag : Bag) :
    attrsOf (Input bag) = optAttr "className" (getAttr bag "labelClassName") := rfl

theorem directText_Input (bag : Bag) :
    directText (Input bag) =
      (match getAttr bag "label" with
       | some s => s
       | none => "") := by
  rw [Input_eq]
  cases hl : getAttr bag "label" <;>
    simp [directText, childrenOf, textOf, String.join, String.empty_append,
      String.append_empty]

/-- Claim C1, as stated, is false: when the pass-through bag also carries a
className entry, the spread overrides the named className attribute on the
input element, so inputClassName is not applied to it.  Concretely, with
inputClassName set to field and a pass-through className set to other, the
rendered input element carries className other, not field. -/
theorem input_inputClassName_overridden_cex :
    ¬ (∀ (bag : Bag) (ci : String), getAttr bag "inputClassName" = some ci →
        getAttr (inputAttrs (Input bag)) "className" = some ci) := by
  intro hall
  have hx := hall [("inputClassName", "field"), ("className", "other")] "field" (by decide)
  exact absurd hx (by decide)

/-- Claim C1 (amended): when inputClassName and labelClassName are provided
and the pass-through bag carries no className entry, labelClassName is the
className of the wrapping label element, inputClassName is the className of
the input element, and the output consists of exactly the label element,
an optional text child, and the input element, so neither class string is
applied to any other node. -/
theorem input_classNames_applied_exactly (bag : Bag) (ci cl : String)
    (h1 : getAttr bag "inputClassName" = some ci)
    (h2 : getAttr bag "labelClassName" = some cl)
    (h3 : getAttr bag "className" = none) :
    getAttr (attrsOf (Input bag)) "className" = some cl ∧
    getAttr (inputAttrs (Input bag)) "className" = some ci ∧
    tagOf (Input bag) = some "label" ∧
    (childrenOf (Input bag) = [Node.element "input" (inputAttrs (Input bag)) []] ∨
     ∃ s, childrenOf (Input bag) =
       [Node.text s, Node.element "input" (inputAttrs (Input bag)) []]) := by
  refine ⟨?_, ?_, rfl, ?_⟩
  · rw [attrsOf_Input, h2]
    exact getAttr_optAttr_self _ _
  · rw [inputAttrs_Input]
    have hK : hasKey (removeKeys bag namedKeys) "className" = false := by
      have hn : getAttr (removeKeys bag namedKeys) "className" = none := by
        rw [getAttr_removeKeys_of_not_mem (by decide), h3]
      rw [hasKey_eq_isSome, hn]; rfl
    rw [getAttr_mergeProps_of_not_hasKey hK]
    exact getAttr_append_some (getAttr_append_some (by rw [getAttr_optAttr_self, h1]))
  · rw [inputAttrs_Input, Input_eq]
    cases hl : getAttr bag "label"
    · exact Or.inl rfl
    · exact Or.inr ⟨_, rfl⟩

/-- Witness for the amended claim C1 at a concrete bag with inputClassName
field and labelClassName wrap. -/
theorem input_classNames_applied_exactly_witness :
    getAttr (attrsOf (Input [("inputClassName", "field"), ("labelClassName", "wrap")])) "className" = some "wrap" ∧
    getAttr (inputAttrs (Input [("inputClassName", "field"), ("labelClassName", "wrap")])) "className" = some "field" ∧
    tagOf (Input [("inputClassName", "field"), ("labelClassName", "wrap")]) = some "label" ∧
    (childrenOf (Input [("inputClassName", "field"), ("labelClassName", "wrap")]) =
      [Node.element "input" (inputAttrs (Input [("inputClassName", "field"), ("labelClassName", "wrap")])) []] ∨
     ∃ s, childrenOf (Input [("inputClassName", "field"), ("labelClassName", "wrap")]) =
      [Node.text s, Node.element "input" (inputAttrs (Input [("inputClassName", "field"), ("labelClassName", "wrap")])) []]) :=
  input_classNames_applied_exactly _ "field" "wrap" (by decide) (by decide) (by decide)

/-- Claim C2: when label is provided, the rendered wrapping label element
has exactly that string as its text content; when label is omitted, the
rendered output contains no text. -/
theorem input_label_text (bag : Bag) :
    (∀ s, getAttr bag "label" = some s → directText (Input bag) = s) ∧
    (getAttr bag "label" = none → directText (Input bag) = "") := by
  constructor
  · intro s hs
    rw [directText_Input, hs]
  · intro h0
    rw [directText_Input, h0]

/-- Witness for claim C2: a bag with label Email renders text Email, and a
bag without label renders no text. -/
theorem input_label_text_witness :
    directText (Input [("label", "Email")]) = "Email" ∧
    directText (Input [("type", "email")]) = "" :=
  ⟨(input_label_text _).1 "Email" (by decide), (input_label_text _).2 (by decide)⟩

/-- Claim C3: type and placeholder, when provided, appear verbatim as
attributes of the rendered input element, with no validation of the type
token; when omitted, the input element carries no such attribute. -/
theorem input_type_placeholder_verbatim (bag : Bag) :
    (∀ t, getAttr bag "type" = some t →
      getAttr (inputAttrs (Input bag)) "type" = some t) ∧
    (getAttr bag "type" = none →
      getAttr (inputAttrs (Input bag)) "type" = none) ∧
    (∀ v, getAttr bag "placeholder" = some v →
      getAttr (inputAttrs (Input bag)) "placeholder" = some v) ∧
    (getAttr bag "placeholder" = none →
      getAttr (inputAttrs (Input bag)) "placeholder" = none) := by
  have hrt : hasKey (removeKeys bag namedKeys) "type" = false :=
    hasKey_removeKeys_of_mem (by decide)
  have hrp : hasKey (removeKeys bag namedKeys) "placeholder" = false :=
    hasKey_removeKeys_of_mem (by decide)
  refine ⟨fun t ht => ?_, fun ht => ?_, fun v hv => ?_, fun hv => ?_⟩
  · rw [inputAttrs_Input, getAttr_mergeProps_of_not_hasKey hrt]
    exact getAttr_append_some
      (by rw [getAttr_append_none (getAttr_optAttr_ne _ (by decide)),
          getAttr_optAttr_self, ht])
  · rw [inputAttrs_Input, getAttr_mergeProps_of_not_hasKey hrt]
    have hab : getAttr
        (optAttr "className" (getAttr bag "inputClassName") ++
         optAttr "type" (getAttr bag "type")) "type" = none := by
      rw [getAttr_append_none (getAttr_optAttr_ne _ (by decide)),
        getAttr_optAttr_self, ht]
    rw [getAttr_append_none hab]
    exact getAttr_optAttr_ne _ (by decide)
  · rw [inputAttrs_Input, getAttr_mergeProps_of_not_hasKey hrp]
    have hab : getAttr
        (optAttr "className" (getAttr bag "inputClassName") ++
         optAttr "type" (getAttr bag "type")) "placeholder" = none := by
      rw [getAttr_append_none (getAttr_optAttr_ne _ (by decide))]
      exact getAttr_optAttr_ne _ (by decide)
    rw [getAttr_append_none hab, getAttr_optAttr_self, hv]
  · rw [inputAttrs_Input, getAttr_mergeProps_of_not_hasKey hrp]
    have hab : getAttr
        (optAttr "className" (getAttr bag "inputClassName") ++
         optAttr "type" (getAttr bag "type")) "placeholder" = none := by
      rw [getAttr_append_none (getAttr_optAttr_ne _ (by decide))]
      exact getAttr_optAttr_ne _ (by decide)
    rw [getAttr_append_none hab, getAttr_optAttr_self, hv]

/-- Witness for claim C3: the unvalidated type token email and the
placeholder you pass through verbatim; a bag with neither yields an input
element with neither attribute. -/
theorem input_type_placeholder_verbatim_witness :
    getAttr (inputAttrs (Input [("type", "email"), ("placeholder", "you")])) "type" = some "email" ∧
    getAttr (inputAttrs (Input [("type", "email"), ("placeholder", "you")])) "placeholder" = some "you" ∧
    getAttr (inputAttrs (Input [("id", "z")])) "type" = none ∧
    getAttr (inputAttrs (Input [("id", "z")])) "placeholder" = none :=
  ⟨(input_type_placeholder_verbatim _).1 "email" (by decide),
   (input_type_placeholder_verbatim _).2.2.1 "you" (by decide),
   (input_type_placeholder_verbatim _).2.1 (by decide),
   (input_type_placeholder_verbatim _).2.2.2 (by decide)⟩

/-- Claim C4: every entry of the attribute bag whose key is not one of the
five named fields is forwarded unmodified to the rendered input element. -/
theorem input_rest_passthrough (bag : Bag) (k v : String)
    (h1 : getAttr bag k = some v) (h2 : k ∉ namedKeys) :
    getAttr (inputAttrs (Input bag)) k = some v := by
  rw [inputAttrs_Input]
  have hr : getAttr (removeKeys bag namedKeys) k = some v := by
    rw [getAttr_removeKeys_of_not_mem h2, h1]
  have hk : hasKey (removeKeys bag namedKeys) k = true := by
    rw [hasKey_eq_isSome, hr]; rfl
  rw [getAttr_mergeProps_of_hasKey hk, hr]

/-- Witness for claim C4: a pass-through id attribute reaches the input
element unchanged. -/
theorem input_rest_passthrough_witness :
    getAttr (inputAttrs (Input [("id", "x7")])) "id" = some "x7" :=
  input_rest_passthrough _ "id" "x7" (by decide) (by decide)

/-- Claim C5: a className entry of the pass-through bag becomes the class
of the rendered input element (the spread is written after the named
className attribute, so the pass-through value wins and inputClassName is
discarded), while a pass-through conflict on type or placeholder is
impossible because the destructuring removes those keys from the rest
props. -/
theorem input_className_spread_wins (bag : Bag) (c : String)
    (h : getAttr bag "className" = some c) :
    getAttr (inputAttrs (Input bag)) "className" = some c ∧
    hasKey (destructureInput bag).rest "type" = false ∧
    hasKey (destructureInput bag).rest "placeholder" = false := by
  refine ⟨?_, ?_, ?_⟩
  · rw [inputAttrs_Input]
    have hr : getAttr (removeKeys bag namedKeys) "className" = some c := by
      rw [getAttr_removeKeys_of_not_mem (by decide), h]
    have hk : hasKey (removeKeys bag namedKeys) "className" = true := by
      rw [hasKey_eq_isSome, hr]; rfl
    rw [getAttr_mergeProps_of_hasKey hk, hr]
  · exact hasKey_removeKeys_of_mem (by decide)
  · exact hasKey_removeKeys_of_mem (by decide)

/-- Witness for claim C5: with both inputClassName field and pass-through
className other, the rendered input element carries class other. -/
theorem input_className_spread_wins_witness :
    getAttr (inputAttrs (Input [("inputClassName", "field"), ("className", "other")])) "className" = some "other" ∧
    hasKey (destructureInput [("inputClassName", "field"), ("className", "other")]).rest "type" = false ∧
    hasKey (destructureInput [("inputClassName", "field"), ("className", "other")]).rest "placeholder" = false :=
  input_className_spread_wins _ "other" (by decide)

/-- Claim C6: Button forwards every caller-supplied attribute verbatim to
the rendered interactive button element, which has no other attributes and
no children. -/
theorem button_passthrough (bag : Bag) :
    attrsOf (Button bag) = bag ∧ tagOf (Button bag) = some "button" ∧
    childrenOf (Button bag) = [] := ⟨rfl, rfl, rfl⟩

/-- Claim C7: rendering either component twice with identical attribute
bags produces identical output; both components are deterministic pure
functions of their attribute bag. -/
theorem components_pure (bag : Bag) :
    (renderTwice Input bag).1 = (renderTwice Input bag).2 ∧
    (renderTwice Button bag).1 = (renderTwice Button bag).2 := ⟨rfl, rfl⟩

/-- Claim C8: the public API surface is exactly the two members Button and
Input, exported through the single aggregation entry point, which is also
the sole build entry declared in vite.config.ts. -/
theorem public_api_surface :
    indexExports = ["Button", "Input"] ∧
    indexExports.length = 2 ∧
    viteBuild.lib.entry = "src/index.ts" := ⟨rfl, rfl, rfl⟩

/-- Claim C9: the build configuration declares exactly the two output
formats es and umd, produced from the single entry point, and declares
react, react-dom and react/jsx-runtime as external so the rendering
framework is never bundled. -/
theorem build_formats_external :
    viteBuild.lib.formats = ["es", "umd"] ∧
    viteBuild.lib.formats.length = 2 ∧
    viteBuild.lib.entry = "src/index.ts" ∧
    viteBuild.rollupOptions.external = ["react", "react-dom", "react/jsx-runtime"] ∧
    viteBuild.lib.fileName "es" = "component-app.es.js" ∧
    viteBuild.lib.fileName "umd" = "component-app.umd.js" :=
  ⟨rfl, rfl, rfl, rfl, rfl, rfl⟩

/-- Claim C10: for every attribute bag, Input renders the outer wrapping
label element unconditionally, whether or not label text or a label class
is supplied. -/
theorem input_label_wrapper_unconditional (bag : Bag) :
    tagOf (Input bag) = some "label" := rfl

end ComponentLib
